import Mathlib

/-!
Verification development for the otel-demo-resilience repository.

The repository's core consists of three Python scripts:
* `scripts/deps_to_graph.py` — the Graph Builder: normalizes raw
  parent→child call observations into a pruned, indexed directed graph,
  rewiring transparent (denylisted infrastructure) nodes;
* `scripts/resilience.py` — the Reliability Simulator: Monte Carlo trials
  drawing per-service alive states and evaluating request success via
  graph reachability, with simple-mode and endpoint-predicate paths;
* `scripts/summarize_results.py` — the Outcome Comparator: bias
  statistics, bootstrap confidence intervals and a signed-rank test.

Each definition below is a shallow embedding of the corresponding Python
function, translated line by line.  Randomness is modelled by an explicit
draw stream `s : Nat → ℚ` (Python's `random.random()` produces values in
`[0,1)`); Python exceptions (`ValueError` / `SystemExit`) are modelled by
`Except String`; Python's `functools.lru_cache` recursion is modelled by
an explicit fuel parameter (`none` = the recursion does not return at
that depth; since at most the 8 denylisted names can be transparent, any
terminating run of the Python recursion has call depth at most 9, so
fuel 9 is exhausted exactly when the Python recursion never returns).
-/

namespace OtelResilience

/-! ## Generic helpers

Python's `sorted` is modelled by an insertion sort over a boolean
`le` relation; on the duplicate-free, totally-ordered inputs the builder
and comparator sort, any comparison sort yields the same list. -/

/-- Insert `x` into `l` before the first element not below it. -/
def insertSorted (le : α → α → Bool) (x : α) : List α → List α
  | [] => [x]
  | y :: ys => if le x y then x :: y :: ys else y :: insertSorted le x ys

/-- Insertion sort with a boolean comparison. -/
def sortByB (le : α → α → Bool) : List α → List α
  | [] => []
  | x :: xs => insertSorted le x (sortByB le xs)

/-- Code-point lexicographic order on character lists — the order Python's
`sorted` uses on strings. -/
def charListLe : List Char → List Char → Bool
  | [], _ => true
  | _ :: _, [] => false
  | a :: as, b :: bs =>
    if a.toNat < b.toNat then true
    else if b.toNat < a.toNat then false
    else charListLe as bs

/-- Lexicographic string order via code points. -/
def strLe (a b : String) : Bool := charListLe a.data b.data

/-- Lexicographic order on index pairs, as Python's `sorted` orders tuples. -/
def pairLeB (a b : Nat × Nat) : Bool :=
  if a.1 < b.1 then true else if b.1 < a.1 then false else a.2 ≤ b.2

/-! ## Graph Builder (`scripts/deps_to_graph.py`) -/

/-- The fixed infrastructure denylist `SKIP` of `deps_to_graph.py` (lines 21-24). -/
def SKIP : List String :=
  ["frontend-proxy", "jaeger", "grafana", "otel-collector", "zipkin",
   "prometheus", "loadgenerator", "load-generator"]

/-- `skip_nodes` membership test (line 57): a name is transparent iff it is on
the denylist and is not listed as an entrypoint.  (The Python code restricts
the set to names occurring in the observed edges, but the predicate is only
ever applied to such names, so the restriction is immaterial.) -/
def skipB (entry : List String) (n : String) : Bool :=
  SKIP.contains n && !(entry.contains n)

/-- The edge list after parsing (lines 42-52): observations with a missing
(empty) parent or child are dropped, as are self-loops after normalization.
The input is taken to be the list of already-normalized `(parent, child)`
pairs. -/
def parsedEdges (raw : List (String × String)) : List (String × String) :=
  raw.filter (fun e => e.1 != "" && e.2 != "" && e.1 != e.2)

/-- Forward adjacency `adj` over the parsed edge list (lines 61-65). -/
def adjOf (edges : List (String × String)) (u : String) : List String :=
  (edges.filter (fun e => e.1 == u)).map (·.2)

/-- Reverse adjacency `radj` over the parsed edge list (lines 61-65). -/
def radjOf (edges : List (String × String)) (v : String) : List String :=
  (edges.filter (fun e => e.2 == v)).map (·.1)

/-- One level of the body of `expand_forward`/`expand_backward`
(lines 69-89): iterate over the adjacency of the queried node, recursing
(via `rec`) into transparent neighbours and collecting the others.
`rec x = none` means the recursive call does not return. -/
def expandStep (skip : String → Bool) (rec : String → Option (List String)) :
    List String → Option (List String)
  | [] => some []
  | x :: xs =>
    if skip x then
      match rec x, expandStep skip rec xs with
      | some ys, some zs => some (ys ++ zs)
      | _, _ => none
    else
      match expandStep skip rec xs with
      | some zs => some (x :: zs)
      | none => none

/-- Fuel-indexed model of the memoized recursion of
`expand_forward`/`expand_backward` (lines 69-89).  `functools.lru_cache`
only caches a call after it returns, so an in-progress cycle of
transparent nodes recurses without bound; `expandNode fuel` returns
`none` exactly when the call tree reaches depth `fuel`. -/
def expandNode (adj : String → List String) (skip : String → Bool) :
    Nat → String → Option (List String)
  | 0, _ => none
  | fuel + 1, node => expandStep skip (expandNode adj skip fuel) (adj node)

/-- Transparent chains in a terminating run of the Python recursion are simple
paths through the at-most-8 denylisted names, so depth 9 never exhausts. -/
def builderFuel : Nat := SKIP.length + 1

/-- Rewriting of one original edge (lines 92-113): keep it if neither endpoint
is transparent, otherwise fan out through the forward/backward closures. -/
def rewriteEdge (expF expB : String → Option (List String)) (skip : String → Bool)
    (e : String × String) : Option (List (String × String)) :=
  match skip e.1, skip e.2 with
  | false, false => some [e]
  | false, true => (expF e.2).map (fun ts => ts.map (fun t => (e.1, t)))
  | true, false => (expB e.1).map (fun ss => ss.map (fun s => (s, e.2)))
  | true, true =>
    match expB e.1, expF e.2 with
    | some ss, some ts => some (ss.flatMap (fun s => ts.map (fun t => (s, t))))
    | _, _ => none

/-- The `filtered` accumulation loop over all original edges (lines 91-113),
before the final transparency filter. -/
def rewriteAll (expF expB : String → Option (List String)) (skip : String → Bool) :
    List (String × String) → Option (List (String × String))
  | [] => some []
  | e :: es =>
    match rewriteEdge expF expB skip e, rewriteAll expF expB skip es with
    | some xs, some ys => some (xs ++ ys)
    | _, _ => none

/-- The graph artifact written by `deps_to_graph.py` (line 134), together with
the name-level edge set `edgesN` from which the index-level `edges` are
derived. -/
structure BuiltGraph where
  services : List String
  edgesN : List (String × String)
  edges : List (Nat × Nat)
  entrypoints : List Nat
  asyncEdges : List (Nat × Nat)
  deriving Repr, DecidableEq

/-- The forward transparent closure `expand_forward` queried by the
rewriting loop. -/
def builderExpF (raw : List (String × String)) (entry : List String) :
    String → Option (List String) :=
  fun n => expandNode (adjOf (parsedEdges raw)) (skipB entry) builderFuel n

/-- The backward transparent closure `expand_backward` queried by the
rewriting loop. -/
def builderExpB (raw : List (String × String)) (entry : List String) :
    String → Option (List String) :=
  fun n => expandNode (radjOf (parsedEdges raw)) (skipB entry) builderFuel n

/-- The rewritten edge accumulation of lines 91-113. -/
def builderRewritten (raw : List (String × String)) (entry : List String) :
    Option (List (String × String)) :=
  rewriteAll (builderExpF raw entry) (builderExpB raw entry) (skipB entry)
    (parsedEdges raw)

/-- The final transparency filter of line 116. -/
def builderFiltered (rewritten : List (String × String))
    (entry : List String) : List (String × String) :=
  rewritten.filter (fun e => !skipB entry e.1 && !skipB entry e.2)

/-- The sorted service list of line 119. -/
def builderServices (filtered : List (String × String)) : List String :=
  sortByB strLe ((filtered.map Prod.fst ++ filtered.map Prod.snd).dedup)

/-- Assembly of the graph artifact (lines 118-134) from the filtered edge
set: deduplicated name-level edges, sorted index-level edges, kafka-based
async edges and resolved entrypoint indices. -/
def mkBuiltGraph (entry : List String)
    (filtered : List (String × String)) : BuiltGraph :=
  let V := builderServices filtered
  let idxOf := fun v => V.indexOf v
  let edgesN := filtered.dedup
  let E := sortByB pairLeB ((edgesN.map (fun e => (idxOf e.1, idxOf e.2))).dedup)
  let asyncE :=
    if V.contains "kafka" then
      E.filter (fun e => e.1 == idxOf "kafka" || e.2 == idxOf "kafka")
    else []
  let entryIds := entry.filterMap
    (fun e => if V.contains e then some (idxOf e) else none)
  { services := V, edgesN := edgesN, edges := E,
    entrypoints := entryIds, asyncEdges := asyncE }

/-- The whole Graph Builder pipeline (lines 40-134) on normalized
observations `raw` and normalized entrypoint names `entry`.  Returns `none`
when the transparent-closure recursion does not terminate (the Python
process dies with `RecursionError`). -/
def buildGraph (raw : List (String × String)) (entry : List String) :
    Option BuiltGraph :=
  match builderRewritten raw entry with
  | none => none
  | some rewritten => some (mkBuiltGraph entry (builderFiltered rewritten entry))

/-! ## Reliability Simulator (`scripts/resilience.py`) -/

/-- The graph JSON consumed by the simulator.  Per the data model (§3) index
values are non-negative, so entrypoint and edge entries are modelled as
natural numbers; `prepare_graph` bounds-checks them anyway. -/
structure SimGraph where
  services : List String
  edges : List (Nat × Nat)
  entrypoints : List Nat
  asyncEdges : List (Nat × Nat)
  deriving Repr, DecidableEq

/-- The failure-semantics mode CLI choice (`--mode`, lines 17-22). -/
inductive Mode where
  | allBlock
  | async
  deriving Repr, DecidableEq

/-- Mode test used when computing `exclude_async` (line 229). -/
def Mode.isAsync : Mode → Bool
  | .allBlock => false
  | .async => true

/-- Success-rule discriminator of a validated endpoint spec (line 79). -/
inductive Rule where
  | anyOf
  | allOf
  | kOfN
  deriving Repr, DecidableEq

/-- A validated endpoint spec as produced by `load_targets` (lines 64-98):
`targets` is populated for `any_of`/`all_of`, `k`/`items` for `k_of_n`. -/
structure EndpointSpec where
  entry : Option String
  excludeAsync : Bool
  rule : Rule
  targets : List String
  k : Int
  items : List String
  deriving Repr, DecidableEq

/-- Whitespace characters removed by Python's `str.strip`. -/
def isStripChar (c : Char) : Bool :=
  c = ' ' || c = '\t' || c = '\n' || c = '\r' || c = '\x0b' || c = '\x0c'

/-- Drop leading and trailing whitespace from a character list. -/
def stripChars (l : List Char) : List Char :=
  ((l.dropWhile isStripChar).reverse.dropWhile isStripChar).reverse

/-- Per-character effect of `lower()` followed by `replace("_", "-")`. -/
def normChar (c : Char) : Char :=
  if c = '_' then '-' else c.toLower

/-- The simulator's name normalization `norm` (lines 38-39): strip,
lowercase, `_`→`-` (no suffix stripping, unlike the builder's `norm`),
expressed character-wise over the string's character list. -/
def normR (s : String) : String :=
  String.mk ((stripChars s.data).map normChar)

/-- The `_name_to_idx` lookup built by `prepare_graph` (line 134): a dict
comprehension keyed by normalized name, so when two services normalize equally
the later index wins. -/
def lookupName (services : List String) (nm : String) : Option Nat :=
  (((services.enum).filter (fun x => normR x.2 == nm)).map (·.1)).getLast?

/-- The bounds-checked adjacency `_adj_all` built by `prepare_graph`
(lines 118-122): `adj[u]` lists edge targets in edge order. -/
def adjAll (g : SimGraph) : List (List Nat) :=
  (List.range g.services.length).map (fun u =>
    (g.edges.filter (fun e =>
      e.1 == u && decide (e.1 < g.services.length) &&
        decide (e.2 < g.services.length))).map (·.2))

/-- Replica count for one service: `int(replicas.get(svc, 1))` (line 140). -/
def replicaCount (replicas : String → Option Int) (svc : String) : Int :=
  (replicas svc).getD 1

/-- Number of per-trial replica draws: `max(1, replicas_count)` (line 142). -/
def numDraws (r : Int) : Nat := (max 1 r).toNat

/-- `draw_alive` (lines 137-146) over an explicit draw stream `s`, starting at
stream position `c`: each service consumes `max(1, r)` consecutive draws and
is alive iff at least one draw strictly exceeds `p_fail`.  Returns the alive
vector and the next stream position. -/
def drawAliveList (svcs : List String) (replicas : String → Option Int)
    (p : ℚ) (s : Nat → ℚ) (c : Nat) : List Bool × Nat :=
  match svcs with
  | [] => ([], c)
  | svc :: rest =>
    let n := numDraws (replicaCount replicas svc)
    let draws := (List.range n).map (fun k => s (c + k))
    let alive := decide (0 < (draws.filter (fun d => decide (p < d))).length)
    let tail := drawAliveList rest replicas p s (c + n)
    (alive :: tail.1, tail.2)

/-- One expansion step of the reachability closure of `bfs_reachable`
(lines 149-174): add every neighbour that is not failed and whose edge is
not banned.  (The Python `if banned_edges and ...` test on a possibly empty
set is equivalent to plain list membership here.) -/
def reachStep (adjM : List (List Nat)) (failedIdx : List Nat)
    (banned : List (Nat × Nat)) (cur : List Nat) : List Nat :=
  (cur ++ cur.flatMap (fun u =>
    (adjM.getD u []).filter (fun v =>
      !(failedIdx.contains v) && !(banned.contains (u, v))))).dedup

/-- `bfs_reachable` (lines 149-174): the set (as a list) of nodes reachable
from `entryIdx` skipping failed nodes and banned edges.  The breadth-first
queue of the Python code computes exactly the closure of `reachStep`, which
is reached after `adjM.length` iterations since every member is an index
below `adjM.length`. -/
def bfsReachable (adjM : List (List Nat)) (failedIdx : List Nat)
    (banned : List (Nat × Nat)) (entryIdx : Nat) : List Nat :=
  if entryIdx < adjM.length then
    if failedIdx.contains entryIdx then []
    else Nat.iterate (reachStep adjM failedIdx banned) adjM.length [entryIdx]
  else []

/-- Entry resolution chain of `endpoint_success` (lines 206-221): explicit
spec entry (defaulting to `frontend`), else the first valid declared
entrypoint, else the conventional `frontend` node.  (The Python branch for a
dict-valued `entrypoints` field cannot arise from the builder's list-valued
artifact and is not modelled.) -/
def resolveEntry (g : SimGraph) (spec : EndpointSpec) : Option Nat :=
  let entryName := spec.entry.getD "frontend"
  match lookupName g.services entryName with
  | some i => some i
  | none =>
    match g.entrypoints with
    | f :: _ =>
      if f < g.services.length then some f
      else lookupName g.services "frontend"
    | [] => lookupName g.services "frontend"

/-- `targets_to_indices` (lines 236-243): resolve every target name, raising
a `ValueError` on the first name absent from the graph. -/
def targetsToIndices (services : List String) :
    List String → Except String (List Nat)
  | [] => .ok []
  | item :: rest =>
    match lookupName services item with
    | none => .error ("Target service not found in graph: " ++ item)
    | some i =>
      match targetsToIndices services rest with
      | .error e => .error e
      | .ok is => .ok (i :: is)

/-- `filter_structural` (lines 245-250): with an active structural set, keep
only structurally reachable targets and count the excluded ones. -/
def filterStruct (req : Option (List Nat)) (nodes : List Nat) :
    List Nat × Nat :=
  match req with
  | none => (nodes, 0)
  | some r =>
    let kept := nodes.filter (fun t => r.contains t)
    (kept, nodes.length - kept.length)

/-- Body of `endpoint_success` after entry resolution (lines 223-273), with
the `exclude_async` flag already computed. -/
def endpointSuccessCore (g : SimGraph) (failedServices : List String)
    (spec : EndpointSpec) (excl : Bool) (entryIdx : Nat) :
    Except String Bool :=
  let adjacency := adjAll g
  let failedIdx := failedServices.filterMap (lookupName g.services)
  let banned := if excl then g.asyncEdges else []
  let reachable := bfsReachable adjacency failedIdx banned entryIdx
  let structuralReq : Option (List Nat) :=
    if excl then some (bfsReachable adjacency [] banned entryIdx) else none
  match spec.rule with
  | Rule.anyOf =>
    match targetsToIndices g.services spec.targets with
    | .error e => .error e
    | .ok ids =>
      let kept := (filterStruct structuralReq ids).1
      if kept.isEmpty then .ok true
      else .ok (kept.any (fun t => reachable.contains t))
  | Rule.allOf =>
    match targetsToIndices g.services spec.targets with
    | .error e => .error e
    | .ok ids =>
      let kept := (filterStruct structuralReq ids).1
      if kept.isEmpty then .ok true
      else .ok (kept.all (fun t => reachable.contains t))
  | Rule.kOfN =>
    match targetsToIndices g.services spec.items with
    | .error e => .error e
    | .ok ids =>
      let fs := filterStruct structuralReq ids
      let requiredK : Int := max 0 (spec.k - (fs.2 : Int))
      if requiredK ≤ 0 then .ok true
      else if fs.1.isEmpty then .ok false
      else
        let satisfied : Int := ((fs.1.filter (fun t => reachable.contains t)).length : Int)
        .ok (decide (min requiredK (fs.1.length : Int) ≤ satisfied))

/-- `endpoint_success` (lines 177-273): empty-adjacency short circuit, entry
resolution (a `ValueError` when unresolvable), then the rule evaluation. -/
def endpointSuccess (g : SimGraph) (failedServices : List String)
    (spec : EndpointSpec) (mode : Mode) : Except String Bool :=
  if (adjAll g).isEmpty then .ok false
  else
    match resolveEntry g spec with
    | none => .error "Unable to resolve entry service for endpoint evaluation"
    | some entryIdx =>
      endpointSuccessCore g failedServices spec
        (mode.isAsync && spec.excludeAsync) entryIdx

/-- Per-mode effective adjacency (lines 299-306): in `async` mode, edges in
the async set are removed for the whole run. -/
def adjForMode (g : SimGraph) (mode : Mode) : List (List Nat) :=
  (adjAll g).enum.map (fun x =>
    match mode with
    | Mode.async => x.2.filter (fun v => !(g.asyncEdges.contains (x.1, v)))
    | Mode.allBlock => x.2)

/-- The `sinks` vector (lines 307-309): nodes with no outgoing effective
edge, unless an explicit simple-target set was supplied. -/
def sinksFor (n : Nat) (adjM : List (List Nat)) (targetsSimple : List Nat) :
    List Bool :=
  if targetsSimple.isEmpty then
    (List.range n).map (fun i => (adjM.getD i []).isEmpty)
  else
    (List.range n).map (fun i => targetsSimple.contains i)

/-- One step of the alive-restricted reachability closure of `bfs_ok`
(lines 321-333). -/
def aliveStep (adjM : List (List Nat)) (alive : List Bool) (cur : List Nat) :
    List Nat :=
  (cur ++ cur.flatMap (fun u =>
    (adjM.getD u []).filter (fun v => alive.getD v false))).dedup

/-- `bfs_ok` (lines 321-333): success iff some sink is reachable from `start`
through currently-alive services; a dead or out-of-range start fails.  The
Python breadth-first search returns true exactly when its visited set — the
closure of `aliveStep`, reached within `adjM.length` iterations — contains a
sink. -/
def bfsOk (adjM : List (List Nat)) (sinks : List Bool) (alive : List Bool)
    (start : Nat) : Bool :=
  if decide (start < alive.length) && alive.getD start false then
    (Nat.iterate (aliveStep adjM alive) adjM.length [start]).any
      (fun u => sinks.getD u false)
  else false

/-- The failed-service set of one trial (line 342): names of services whose
alive flag is false. -/
def failedOf (svcs : List String) (alive : List Bool) : List String :=
  ((svcs.zip alive).filter (fun x => !x.2)).map (·.1)

/-- The Monte Carlo loop of `main` (lines 338-349): run `n` trials, threading
the draw-stream position, counting successes; a `ValueError` from the
endpoint predicate aborts the run (`SystemExit`). -/
def runTrials (svcs : List String) (replicas : String → Option Int) (p : ℚ)
    (s : Nat → ℚ) (trialFn : List Bool → Except String Bool) :
    Nat → Nat → Except String Nat
  | 0, _ => .ok 0
  | n + 1, c =>
    let d := drawAliveList svcs replicas p s c
    match trialFn d.1 with
    | .error e => .error e
    | .ok b =>
      match runTrials svcs replicas p s trialFn n d.2 with
      | .error e => .error e
      | .ok k => .ok (k + (if b then 1 else 0))

/-- `main` of `resilience.py` (lines 276-364) from already-parsed inputs:
filter the declared entrypoints (line 282 keeps only indices below the
service count — out-of-range ones are silently dropped), build the per-mode
adjacency and sinks, and run the trials, returning the success count.
`targetsSimple` is the (possibly empty) resolved `--targets` set and
`espec` the optional validated `--endpoint` spec. -/
def runSimCount (g : SimGraph) (replicas : String → Option Int) (p : ℚ)
    (samples : Nat) (mode : Mode) (targetsSimple : List Nat)
    (espec : Option EndpointSpec) (s : Nat → ℚ) : Except String Nat :=
  let n := g.services.length
  let entry := g.entrypoints.filter (fun e => decide (e < n))
  let adjM := adjForMode g mode
  let sinks := sinksFor n adjM targetsSimple
  let trialFn : List Bool → Except String Bool :=
    match espec with
    | some spec => fun alive =>
        endpointSuccess g (failedOf g.services alive) spec mode
    | none => fun alive => .ok (entry.any (fun e => bfsOk adjM sinks alive e))
  runTrials g.services replicas p s trialFn samples 0

/-- `r_model = successes / samples if samples else 0.0` (line 351). -/
def rModelOf (samples : Nat) (k : Nat) : ℚ :=
  if samples = 0 then 0 else (k : ℚ) / (samples : ℚ)

/-- The full simulator run: the success count of the Monte Carlo loop
converted to the reported `R_model`. -/
def runSim (g : SimGraph) (replicas : String → Option Int) (p : ℚ)
    (samples : Nat) (mode : Mode) (targetsSimple : List Nat)
    (espec : Option EndpointSpec) (s : Nat → ℚ) : Except String ℚ :=
  match runSimCount g replicas p samples mode targetsSimple espec s with
  | .error e => .error e
  | .ok k => .ok (rModelOf samples k)

/-- The set of command-line options accepted by the simulator's `parse_args`
(lines 10-35).  There is no seed option. -/
def simulatorFlags : List String :=
  ["--graph", "--replicas", "--p", "--samples", "--out", "--mode",
   "--targets", "--targets-file", "--endpoint"]

/-- The raw JSON value of one endpoint entry of `targets.json`, as far as
`load_targets` (lines 64-98) inspects it: the optional `entry` string, the
`exclude_async` flag and the three optional rule fields. -/
structure RawSpec where
  entry : Option String
  excludeAsync : Bool
  anyOf : Option (List String)
  allOf : Option (List String)
  kOfN : Option (Int × List String)
  deriving Repr, DecidableEq

/-- Number of rule fields declared by a raw endpoint entry (line 73). -/
def ruleFieldCount (raw : RawSpec) : Nat :=
  (if raw.anyOf.isSome then 1 else 0) + (if raw.allOf.isSome then 1 else 0) +
    (if raw.kOfN.isSome then 1 else 0)

/-- Validation of one endpoint entry by `load_targets` (lines 65-98):
exactly one rule field must be declared, list-valued fields must be
non-empty, and names are normalized. -/
def loadEndpointSpec (raw : RawSpec) : Except String EndpointSpec :=
  if ruleFieldCount raw ≠ 1 then
    .error "Endpoint must declare exactly one of any_of/all_of/k_of_n"
  else
    let entryN := raw.entry.bind (fun e => if e = "" then none else some (normR e))
    match raw.anyOf, raw.allOf, raw.kOfN with
    | some vs, _, _ =>
      if vs.isEmpty then .error "any_of must be a non-empty list"
      else .ok { entry := entryN, excludeAsync := raw.excludeAsync,
                 rule := Rule.anyOf, targets := vs.map normR, k := 0, items := [] }
    | none, some vs, _ =>
      if vs.isEmpty then .error "all_of must be a non-empty list"
      else .ok { entry := entryN, excludeAsync := raw.excludeAsync,
                 rule := Rule.allOf, targets := vs.map normR, k := 0, items := [] }
    | none, none, some kb =>
      if kb.2.isEmpty then .error "k_of_n.items must be a non-empty list"
      else .ok { entry := entryN, excludeAsync := raw.excludeAsync,
                 rule := Rule.kOfN, targets := [], k := kb.1, items := kb.2.map normR }
    | none, none, none =>
      .error "Endpoint must declare exactly one of any_of/all_of/k_of_n"

/-! ## Outcome Comparator (`scripts/summarize_results.py`) -/

/-- Per-window bias series for one model value (lines 384-385):
`|R_model − x_i|` for each live window value. -/
def biasWindows (m : ℚ) (live : List ℚ) : List ℚ :=
  live.map (fun x => |m - x|)

/-- Per-window difference of two bias series (line 386). -/
def deltaWindows (bb ba : List ℚ) : List ℚ :=
  List.zipWith (fun a b => a - b) bb ba

/-- Mean bias over the live windows (lines 389-390; `windows > 0` is
guaranteed by the earlier hard exits). -/
def meanBias (m : ℚ) (live : List ℚ) : ℚ :=
  (biasWindows m live).sum / (live.length : ℚ)

/-- The mean of one bootstrap resample (lines 44-49, `statistic="mean"` as in
the main path): `n` draws with replacement, indexed through the abstract
index stream `pick` (Python's `rng.randrange(n)` yields a value in `[0,n)`,
modelled by reducing the stream value modulo `n`). -/
def resampleMean (values : List ℚ) (pick : Nat → Nat) (r : Nat) : ℚ :=
  let n := values.length
  (((List.range n).map (fun j => values.getD (pick (r * n + j) % n) 0)).sum) /
    (n : ℚ)

/-- `bootstrap_ci` (lines 32-53) with the mean statistic: `none` on an empty
series, otherwise the empirical `[α/2, 1−α/2]` percentiles of the sorted
resample means. -/
def bootstrapCI (values : List ℚ) (pick : Nat → Nat) (nres : Nat) (alpha : ℚ) :
    Option (ℚ × ℚ) :=
  if values.isEmpty then none
  else
    let stats := sortByB (fun a b => decide (a ≤ b))
      ((List.range nres).map (resampleMean values pick))
    let lower := (Int.floor ((alpha / 2) * (nres : ℚ))).toNat
    let upper := min (nres - 1) (Int.floor ((1 - alpha / 2) * (nres : ℚ))).toNat
    some (stats.getD lower 0, stats.getD upper 0)

/-- Consecutive runs of equal absolute values in the sorted
`(abs diff, index)` list — the tie groups of the `while` loop of
`wilcoxon_signed_rank` (lines 66-76). -/
def groupRuns (l : List (ℚ × Nat)) : List (List (ℚ × Nat)) :=
  l.foldr (fun x acc =>
    match acc with
    | [] => [[x]]
    | g :: gs =>
      match g with
      | [] => [x] :: gs
      | y :: _ => if x.1 = y.1 then (x :: g) :: gs else [x] :: g :: gs) []

/-- Average-rank assignment per tie group (lines 70-72): a group starting at
0-based position `pos` of length `t` gets rank `(pos + 1 + (pos + t)) / 2`;
returns `(index, rank)` pairs. -/
def assignRanks : List (List (ℚ × Nat)) → Nat → List (Nat × ℚ)
  | [], _ => []
  | g :: gs, pos =>
    g.map (fun x => (x.2, (((pos + 1 : Nat) : ℚ) + ((pos + g.length : Nat) : ℚ)) / 2))
      ++ assignRanks gs (pos + g.length)

/-- Rank lookup by difference index. -/
def lookupRank (ranks : List (Nat × ℚ)) (i : Nat) : ℚ :=
  (((ranks.filter (fun x => x.1 == i)).map (·.2)).headD 0)

/-- `wilcoxon_signed_rank` (lines 56-88): discard zero differences; `none`
when none remain or when the tie-corrected variance is non-positive;
otherwise the signed-rank statistic `w = min(w⁺, w⁻)` with the exact null
mean and variance.  (The final two-sided p-value `erfc(|z|/√2)` is a
floating-point transcendental of `(w, mean, var)`; the test is modelled up
to that strictly monotone final step, which preserves exactly the
`None`-versus-value structure the spec describes.) -/
def wilcoxonSignedRank (x y : List ℚ) : Option (ℚ × ℚ × ℚ) :=
  let diffs := (List.zipWith (fun a b => a - b) x y).filter (fun d => d != 0)
  let n := diffs.length
  if n = 0 then none
  else
    let awi := sortByB
      (fun a b => decide (a.1 < b.1 ∨ (a.1 = b.1 ∧ a.2 ≤ b.2)))
      (diffs.enum.map (fun p => (|p.2|, p.1)))
    let groups := groupRuns awi
    let ranks := assignRanks groups 0
    let wpos := ((diffs.enum.filter (fun p => decide (0 < p.2))).map
      (fun p => lookupRank ranks p.1)).sum
    let wneg := ((diffs.enum.filter (fun p => decide (p.2 < 0))).map
      (fun p => lookupRank ranks p.1)).sum
    let w := min wpos wneg
    let mean : ℚ := (n : ℚ) * ((n : ℚ) + 1) / 4
    let tieTerm : ℚ := (((groups.filter (fun g => decide (1 < g.length))).map
      (fun g => ((g.length : ℚ)) * ((g.length : ℚ) ^ 2 - 1))).sum) / 48
    let varW : ℚ := (n : ℚ) * ((n : ℚ) + 1) * (2 * (n : ℚ) + 1) / 24 - tieTerm
    if varW ≤ 0 then none
    else some (w, mean, varW)

/-! ## Spec-side predicate for refinement comparison -/

/-- The `k_of_n` success predicate exactly as the specification sentence
states it (§4.2 step 3): success iff the count of remaining targets in the
reachable set is at least `max(0, k − excluded)`, and if no targets remain,
success iff the adjusted k is at most 0.  This definition follows the
specification's words (not the code) and exists only to be compared with
`endpointSuccessCore`. -/
def kOfNClaimSuccess (remainingTotal remainingInReach : Nat) (k : Int)
    (excluded : Nat) : Bool :=
  if remainingTotal = 0 then decide (k - (excluded : Int) ≤ 0)
  else decide (max 0 (k - (excluded : Int)) ≤ (remainingInReach : Int))

/-! ## Concrete fixtures -/

/-- A draw stream returning 1/2 everywhere (every draw survives `p = 0`). -/
def sHalf : Nat → ℚ := fun _ => mkRat 1 2

/-- A draw stream returning 0 everywhere: `random.random()` can return
exactly 0.0, and such a draw fails the strict `> p_fail` survival test even
at `p_fail = 0`. -/
def zeroDraws : Nat → ℚ := fun _ => 0

/-- An empty replica table (every service defaults to 1 replica). -/
def repNone : String → Option Int := fun _ => none

/-- Raw observations containing the path `a → jaeger → b` with `jaeger`
denylisted and not an entrypoint. -/
def rawC1 : List (String × String) := [("a", "jaeger"), ("jaeger", "b")]

/-- The graph the builder produces from `rawC1`. -/
def gC1fix : BuiltGraph :=
  { services := ["a", "b"], edgesN := [("a", "b")], edges := [(0, 1)],
    entrypoints := [], asyncEdges := [] }

/-- Raw observations in which the transparent nodes `jaeger` and `grafana`
form a directed cycle queried through the edge `a → jaeger`. -/
def rawCycle : List (String × String) :=
  [("a", "jaeger"), ("jaeger", "grafana"), ("grafana", "jaeger")]

/-- Raw observations where rewiring through transparent `jaeger` introduces
the self-loop `(a, a)`. -/
def rawSelf : List (String × String) := [("a", "jaeger"), ("jaeger", "a")]

/-- The graph the builder produces from `rawSelf`: it contains the self-loop
at index level and at name level. -/
def gSelf : BuiltGraph :=
  { services := ["a"], edgesN := [("a", "a")], edges := [(0, 0)],
    entrypoints := [], asyncEdges := [] }

/-- A two-service simulator graph whose only declared entrypoint index 5 is
out of range. -/
def gC5 : SimGraph :=
  { services := ["a", "b"], edges := [(0, 1)], entrypoints := [5],
    asyncEdges := [] }

/-- A three-service simulator graph with no async edges in which service
`y` (index 2) is unreachable from `frontend`. -/
def gC7 : SimGraph :=
  { services := ["frontend", "x", "y"], edges := [(0, 1)], entrypoints := [0],
    asyncEdges := [] }

/-- An `any_of` endpoint spec over the structurally unreachable target `y`
with `exclude_async = true`. -/
def spec7 : EndpointSpec :=
  { entry := some "frontend", excludeAsync := true, rule := Rule.anyOf,
    targets := ["y"], k := 0, items := [] }

/-- A three-service simulator graph where both `x` and `y` are reachable
from `frontend`. -/
def gC2 : SimGraph :=
  { services := ["frontend", "x", "y"], edges := [(0, 1), (0, 2)],
    entrypoints := [0], asyncEdges := [] }

/-- A `k_of_n` spec demanding `k = 3` of only two declared targets. -/
def spec2 : EndpointSpec :=
  { entry := some "frontend", excludeAsync := false, rule := Rule.kOfN,
    targets := [], k := 3, items := ["x", "y"] }

/-- The zero-service simulator graph. -/
def gEmpty : SimGraph :=
  { services := [], edges := [], entrypoints := [], asyncEdges := [] }

/-- A raw endpoint entry declaring two rule fields at once. -/
def rawSpecBad : RawSpec :=
  { entry := none, excludeAsync := false, anyOf := some ["x"],
    allOf := some ["y"], kOfN := none }

/-- An `any_of` spec naming a target absent from the graph. -/
def specMissing : EndpointSpec :=
  { entry := some "frontend", excludeAsync := false, rule := Rule.anyOf,
    targets := ["nosuch"], k := 0, items := [] }

/-- Stream position at which service `i` of `svcs` starts drawing when a
trial starts at position `c` (the draws of the preceding services are
consumed first). -/
def drawOffset (replicas : String → Option Int) (svcs : List String)
    (c : Nat) (i : Nat) : Nat :=
  c + (((svcs.take i).map (fun sv => numDraws (replicaCount replicas sv))).sum)

/-! ## Theorems -/

/-- C3: at the failing input `rawCycle`, the naive recursion of
`expand_forward` has unbounded call depth — no fuel suffices for the query
at `jaeger` — so the Python recursion (whose `lru_cache` only stores a
result after the call returns, and hence cannot break an in-progress cycle)
never returns, and the Graph Builder run crashes instead of producing a
graph.  This contradicts the claim that `expand_forward` returns for every
queried node even when transparent nodes form directed cycles. -/
theorem c3_transparent_cycle_divergence :
    (∀ fuel, expandNode (adjOf (parsedEdges rawCycle)) (skipB []) fuel
      "jaeger" = none) ∧
    buildGraph rawCycle [] = none := by
  constructor
  · have hadjJ : adjOf (parsedEdges rawCycle) "jaeger" = ["grafana"] := rfl
    have hadjG : adjOf (parsedEdges rawCycle) "grafana" = ["jaeger"] := rfl
    have hsJ : skipB [] "jaeger" = true := rfl
    have hsG : skipB [] "grafana" = true := rfl
    have key : ∀ fuel,
        expandNode (adjOf (parsedEdges rawCycle)) (skipB []) fuel "jaeger" = none ∧
        expandNode (adjOf (parsedEdges rawCycle)) (skipB []) fuel "grafana" = none := by
      intro fuel
      induction fuel with
      | zero => exact ⟨rfl, rfl⟩
      | succ f ih =>
        constructor
        · show expandStep (skipB []) _ (adjOf (parsedEdges rawCycle) "jaeger") = none
          rw [hadjJ]
          simp only [expandStep, hsG, if_true, ih.2]
        · show expandStep (skipB []) _ (adjOf (parsedEdges rawCycle) "grafana") = none
          rw [hadjG]
          simp only [expandStep, hsJ, if_true, ih.1]
    exact fun fuel => (key fuel).1
  · rfl

/-- C4 counterexample: from `rawSelf` the builder emits the graph `gSelf`
whose final edge set contains the self-loop `(0,0)` (name level `(a,a)`),
introduced by rewiring through the transparent `jaeger` node and never
dropped — refuting the claim that every produced graph is self-loop-free. -/
theorem c4_selfloop_counterexample :
    buildGraph rawSelf [] = some gSelf ∧ (0, 0) ∈ gSelf.edges ∧
      ¬ (∀ p ∈ gSelf.edges, p.1 ≠ p.2) := by
  refine ⟨rfl, by decide, by decide⟩

/-- C6 counterexample: the simulator's CLI accepts no `--seed` option (and
`resilience.py` never seeds its PRNG), so a run cannot be made reproducible
by fixing a seed through the program's interface, refuting the claim as
stated. -/
theorem c6_no_seed_flag_counterexample :
    "--seed" ∉ simulatorFlags ∧ "--p" ∈ simulatorFlags ∧
      "--samples" ∈ simulatorFlags ∧ "--mode" ∈ simulatorFlags := by
  decide

/-- C10 counterexample: `random.random()` ranges over `[0,1)` and can return
exactly 0.  With failure probability `p = 0`, a replica whose draw is 0
fails the strict `draw > p` survival test, so a single-replica service is
dead in that trial — refuting "with p = 0 every service is alive in every
trial". -/
theorem c10_zero_draw_counterexample :
    (0 : ℚ) ≤ zeroDraws 0 ∧ zeroDraws 0 < 1 ∧
      (drawAliveList ["a"] repNone 0 zeroDraws 0).1 = [false] := by
  refine ⟨by decide, by decide, rfl⟩

/-- C5 counterexample: on `gC5` every declared entrypoint index (5) is out
of range for the two services, yet the simulator silently drops it
(line 282), runs, and reports `R_model = 0` with no configuration error —
refuting the claim that an out-of-range entry index is a hard error. -/
theorem c5_silent_entrypoint_counterexample :
    (∀ e ∈ gC5.entrypoints, gC5.services.length ≤ e) ∧
      runSim gC5 repNone 0 1 Mode.allBlock [] none sHalf = Except.ok 0 := by
  refine ⟨by decide, ?_⟩
  have h : runSimCount gC5 repNone 0 1 Mode.allBlock [] none sHalf =
      Except.ok 0 := by rfl
  unfold runSim
  rw [h]
  norm_num [rModelOf]

/-- C7 counterexample: `gC7` has an empty `async_edges` set, yet with the
`exclude_async` endpoint spec `spec7` the async mode applies structural
exclusion (dropping the structurally unreachable target `y`) while the
all-block mode does not, so the same input yields `R_model = 0` under
all-block and `R_model = 1` under async — refuting the claim that all trial
outcomes coincide whenever `async_edges` is empty. -/
theorem c7_mode_divergence_counterexample :
    gC7.asyncEdges = [] ∧
      runSim gC7 repNone 0 1 Mode.allBlock [] (some spec7) sHalf =
        Except.ok 0 ∧
      runSim gC7 repNone 0 1 Mode.async [] (some spec7) sHalf =
        Except.ok 1 := by
  refine ⟨rfl, ?_, ?_⟩
  · have h : runSimCount gC7 repNone 0 1 Mode.allBlock [] (some spec7) sHalf =
        Except.ok 0 := by rfl
    unfold runSim
    rw [h]
    norm_num [rModelOf]
  · have h : runSimCount gC7 repNone 0 1 Mode.async [] (some spec7) sHalf =
        Except.ok 1 := by rfl
    unfold runSim
    rw [h]
    norm_num [rModelOf]

/-- C2 counterexample: on `gC2` the `k_of_n` spec `spec2` declares `k = 3`
over two targets, both reachable with no failures; the code clamps the
requirement to `min(required_k, len(node_ids)) = 2` and reports success,
while the claim's formula (count `≥ max(0, k − excluded) = 3`) demands
failure. -/
theorem c2_kofn_counterexample :
    targetsToIndices gC2.services spec2.items = Except.ok [1, 2] ∧
      ([1, 2].filter
        (fun t => (bfsReachable (adjAll gC2) [] [] 0).contains t)).length = 2 ∧
      kOfNClaimSuccess 2 2 spec2.k 0 = false ∧
      endpointSuccess gC2 [] spec2 Mode.allBlock = Except.ok true := by
  refine ⟨by rfl, by rfl, by decide, by rfl⟩


/-- If every trial reports a non-error failure, the Monte Carlo loop counts
zero successes from any stream position. -/
theorem runTrials_const_ok_false (svcs : List String)
    (replicas : String → Option Int) (p : ℚ) (s : Nat → ℚ)
    (trialFn : List Bool → Except String Bool)
    (h : ∀ alive, trialFn alive = Except.ok false) :
    ∀ N c, runTrials svcs replicas p s trialFn N c = Except.ok 0 := by
  intro N
  induction N with
  | zero => intro c; rfl
  | succ n ih =>
    intro c
    simp [runTrials, h, ih]

/-- `R_model` conversion of a zero success count is 0 for every sample
count. -/
theorem rModelOf_zero (N : Nat) : rModelOf N 0 = 0 := by
  unfold rModelOf
  split
  · rfl
  · simp

/-- C8: on a zero-service graph the simulator terminates and reports
`R_model = 0` for any positive sample count, in both the simple-mode path
(the filtered entrypoint list is empty, so every trial fails) and the
endpoint-predicate path (`endpoint_success` returns `False` on the empty
adjacency before any other check). -/
theorem c8_zero_service_graph (g : SimGraph) (hsvc : g.services = [])
    (replicas : String → Option Int) (p : ℚ) (mode : Mode) (ts : List Nat)
    (espec : Option EndpointSpec) (s : Nat → ℚ) (N : Nat) (_hN : 0 < N) :
    runSim g replicas p N mode ts espec s = Except.ok 0 := by
  have hadj : adjAll g = [] := by
    unfold adjAll
    rw [hsvc]
    rfl
  have hcount : runSimCount g replicas p N mode ts espec s = Except.ok 0 := by
    unfold runSimCount
    cases espec with
    | none =>
      have hentry : g.entrypoints.filter
          (fun e => decide (e < g.services.length)) = [] := by
        rw [hsvc]
        simp
      apply runTrials_const_ok_false
      intro alive
      rw [hentry]
      rfl
    | some spec =>
      apply runTrials_const_ok_false
      intro alive
      show endpointSuccess g (failedOf g.services alive) spec mode =
        Except.ok false
      unfold endpointSuccess
      rw [hadj]
      rfl
  unfold runSim
  rw [hcount]
  show Except.ok (rModelOf N 0) = Except.ok 0
  rw [rModelOf_zero]

/-- C8 witness: the concrete zero-service graph with one sample. -/
theorem c8_zero_service_witness :
    runSim gEmpty repNone (mkRat 1 4) 1 Mode.allBlock [] none sHalf =
      Except.ok 0 :=
  c8_zero_service_graph gEmpty rfl repNone (mkRat 1 4) Mode.allBlock [] none
    sHalf 1 (by decide)

/-- C6 amended: the simulator accepts no seed parameter, but the model
prediction is a pure function of its inputs plus the draw stream: two runs
with identical inputs and pointwise-equal streams report the same
`R_model`. -/
theorem c6_determinism_amended (g : SimGraph) (replicas : String → Option Int)
    (p : ℚ) (N : Nat) (mode : Mode) (ts : List Nat)
    (espec : Option EndpointSpec) (s₁ s₂ : Nat → ℚ)
    (h : ∀ k, s₁ k = s₂ k) :
    runSim g replicas p N mode ts espec s₁ =
      runSim g replicas p N mode ts espec s₂ := by
  have hs : s₁ = s₂ := funext h
  rw [hs]

/-- C6 witness: two pointwise-equal streams written differently. -/
theorem c6_determinism_witness :
    runSim gC5 repNone 0 2 Mode.allBlock [] none sHalf =
      runSim gC5 repNone 0 2 Mode.allBlock [] none (fun _ => mkRat 2 4) :=
  c6_determinism_amended gC5 repNone 0 2 Mode.allBlock [] none sHalf
    (fun _ => mkRat 2 4) (fun _ => show mkRat 1 2 = mkRat 2 4 by decide)

/-- A target name absent from the graph makes `targets_to_indices` raise. -/
theorem targetsToIndices_error_of_missing {services : List String} :
    ∀ {items : List String} {item : String}, item ∈ items →
      lookupName services item = none →
      ∃ msg, targetsToIndices services items = Except.error msg := by
  intro items
  induction items with
  | nil => intro item h; cases h
  | cons hd tl ih =>
    intro item hmem hmiss
    rcases List.mem_cons.mp hmem with rfl | htl
    · exact ⟨"Target service not found in graph: " ++ item,
        by simp [targetsToIndices, hmiss]⟩
    · cases hl : lookupName services hd with
      | none => exact ⟨"Target service not found in graph: " ++ hd,
          by simp [targetsToIndices, hl]⟩
      | some i =>
        obtain ⟨msg, hmsg⟩ := ih htl hmiss
        exact ⟨msg, by simp [targetsToIndices, hl, hmsg]⟩

/-- C5 amended: malformed rule fields and absent target names are hard
configuration errors, exactly as claimed; but an out-of-range entrypoint
index is silently dropped by the filter of line 282 rather than rejected,
and when every declared entrypoint is out of range the simple-mode
simulator reports `R_model = 0` with no error. -/
theorem c5_error_handling_amended :
    (∀ raw : RawSpec, ruleFieldCount raw ≠ 1 →
      ∃ msg, loadEndpointSpec raw = Except.error msg) ∧
    (∀ (g : SimGraph) (failed : List String) (spec : EndpointSpec)
      (mode : Mode) (eIdx : Nat), (adjAll g).isEmpty = false →
      resolveEntry g spec = some eIdx →
      (∃ item, item ∈ (match spec.rule with
        | Rule.kOfN => spec.items
        | _ => spec.targets) ∧ lookupName g.services item = none) →
      ∃ msg, endpointSuccess g failed spec mode = Except.error msg) ∧
    (∀ (g : SimGraph) (replicas : String → Option Int) (p : ℚ) (N : Nat)
      (mode : Mode) (ts : List Nat) (s : Nat → ℚ),
      (∀ e ∈ g.entrypoints, g.services.length ≤ e) →
      runSim g replicas p N mode ts none s = Except.ok 0) := by
  refine ⟨?_, ?_, ?_⟩
  · intro raw h
    exact ⟨"Endpoint must declare exactly one of any_of/all_of/k_of_n",
      by simp [loadEndpointSpec, h]⟩
  · intro g failed spec mode eIdx hadj hres hmiss
    obtain ⟨item, hmem, hmiss⟩ := hmiss
    unfold endpointSuccess
    rw [hadj, hres]
    simp only [Bool.false_eq_true, if_false]
    unfold endpointSuccessCore
    cases hrule : spec.rule with
    | anyOf =>
      rw [hrule] at hmem
      obtain ⟨msg, hmsg⟩ := targetsToIndices_error_of_missing hmem hmiss
      exact ⟨msg, by simp [hmsg]⟩
    | allOf =>
      rw [hrule] at hmem
      obtain ⟨msg, hmsg⟩ := targetsToIndices_error_of_missing hmem hmiss
      exact ⟨msg, by simp [hmsg]⟩
    | kOfN =>
      rw [hrule] at hmem
      obtain ⟨msg, hmsg⟩ := targetsToIndices_error_of_missing hmem hmiss
      exact ⟨msg, by simp [hmsg]⟩
  · intro g replicas p N mode ts s hout
    have hentry : g.entrypoints.filter
        (fun e => decide (e < g.services.length)) = [] := by
      rw [List.filter_eq_nil_iff]
      intro e he
      simpa using Nat.not_lt.mpr (hout e he)
    have hcount : runSimCount g replicas p N mode ts none s = Except.ok 0 := by
      unfold runSimCount
      apply runTrials_const_ok_false
      intro alive
      rw [hentry]
      rfl
    unfold runSim
    rw [hcount]
    show Except.ok (rModelOf N 0) = Except.ok 0
    rw [rModelOf_zero]

/-- C5 witness: a doubly-declared rule errors, a missing target name
errors, and a run whose sole entrypoint is out of range silently reports
zero. -/
theorem c5_error_handling_witness :
    (∃ msg, loadEndpointSpec rawSpecBad = Except.error msg) ∧
    (∃ msg, endpointSuccess gC2 [] specMissing Mode.allBlock =
      Except.error msg) ∧
    runSim gC5 repNone 0 1 Mode.allBlock [] none sHalf = Except.ok 0 := by
  refine ⟨c5_error_handling_amended.1 rawSpecBad (by decide),
    c5_error_handling_amended.2.1 gC2 [] specMissing Mode.allBlock 0
      (by rfl) (by rfl) ⟨"nosuch", by decide, by rfl⟩,
    c5_error_handling_amended.2.2 gC5 repNone 0 1 Mode.allBlock [] sHalf
      (by decide)⟩

/-- For a spec that does not exclude async edges, the endpoint predicate
does not depend on the mode: `exclude_async` is the only place the mode is
consulted. -/
theorem endpointSuccess_mode_indep (g : SimGraph) (failed : List String)
    (spec : EndpointSpec) (h : spec.excludeAsync = false) (m₁ m₂ : Mode) :
    endpointSuccess g failed spec m₁ = endpointSuccess g failed spec m₂ := by
  unfold endpointSuccess
  rw [h]
  simp [Bool.and_false]

/-- C7 amended: with an empty `async_edges` set the effective adjacencies
of the two modes coincide, and the reported `R_model` is identical across
modes for the same stream in the simple-mode path and for endpoint specs
that do not request async exclusion.  (When a spec sets
`exclude_async = true`, the async mode additionally applies structural
target exclusion, which can change outcomes even with no async edges —
see the counterexample.) -/
theorem c7_mode_equivalence_amended (g : SimGraph)
    (replicas : String → Option Int) (p : ℚ) (N : Nat) (ts : List Nat)
    (espec : Option EndpointSpec) (s : Nat → ℚ)
    (hasync : g.asyncEdges = [])
    (hspec : ∀ spec, espec = some spec → spec.excludeAsync = false) :
    adjForMode g Mode.allBlock = adjForMode g Mode.async ∧
    runSim g replicas p N Mode.allBlock ts espec s =
      runSim g replicas p N Mode.async ts espec s := by
  have hadj : adjForMode g Mode.allBlock = adjForMode g Mode.async := by
    unfold adjForMode
    apply List.map_congr_left
    intro a _
    rw [hasync]
    simp
  refine ⟨hadj, ?_⟩
  have hcount : runSimCount g replicas p N Mode.allBlock ts espec s =
      runSimCount g replicas p N Mode.async ts espec s := by
    cases espec with
    | none => simp only [runSimCount, hadj]
    | some spec =>
      have hts : (fun alive =>
          endpointSuccess g (failedOf g.services alive) spec Mode.allBlock) =
          (fun alive =>
          endpointSuccess g (failedOf g.services alive) spec Mode.async) :=
        funext (fun alive =>
          endpointSuccess_mode_indep g _ spec (hspec spec rfl) _ _)
      simp only [runSimCount, hadj]
      rw [hts]
  unfold runSim
  rw [hcount]

/-- C7 witness: the two modes agree on a graph with no async edges in
simple mode. -/
theorem c7_mode_equivalence_witness :
    adjForMode gC7 Mode.allBlock = adjForMode gC7 Mode.async ∧
    runSim gC7 repNone 0 1 Mode.allBlock [] none sHalf =
      runSim gC7 repNone 0 1 Mode.async [] none sHalf :=
  c7_mode_equivalence_amended gC7 repNone 0 1 [] none sHalf rfl
    (fun spec h => by cases h)

/-- A missing, zero or negative replica entry yields exactly one draw. -/
theorem numDraws_eq_one (replicas : String → Option Int) (sv : String)
    (h : replicas sv = none ∨ ∃ r, replicas sv = some r ∧ r ≤ 0) :
    numDraws (replicaCount replicas sv) = 1 := by
  rcases h with h | ⟨r, hr, hr0⟩
  · simp [replicaCount, numDraws, h]
  · have : max (1 : Int) r = 1 :=
      max_eq_left (le_trans hr0 (by norm_num))
    simp [replicaCount, numDraws, hr, this]

/-- Every service performs at least one replica draw. -/
theorem one_le_numDraws (r : Int) : 1 ≤ numDraws r := by
  have h1 : (1 : Int) ≤ max 1 r := le_max_left 1 r
  exact Int.toNat_le_toNat h1

/-- The alive vector has one flag per service. -/
theorem drawAliveList_length (replicas : String → Option Int) (p : ℚ)
    (s : Nat → ℚ) :
    ∀ (svcs : List String) (c : Nat),
      (drawAliveList svcs replicas p s c).1.length = svcs.length := by
  intro svcs
  induction svcs with
  | nil => intro c; rfl
  | cons sv rest ih => intro c; simp [drawAliveList, ih]

/-- Characterization of one alive flag: service `i` is alive iff one of its
`max(1,r)` consecutive draws strictly exceeds `p`. -/
theorem drawAliveList_getD (replicas : String → Option Int) (p : ℚ)
    (s : Nat → ℚ) :
    ∀ (svcs : List String) (c i : Nat), i < svcs.length →
      ((drawAliveList svcs replicas p s c).1.getD i false = true ↔
        ∃ k, k < numDraws (replicaCount replicas (svcs.getD i "")) ∧
          p < s (drawOffset replicas svcs c i + k)) := by
  intro svcs
  induction svcs with
  | nil => intro c i h; simp at h
  | cons sv rest ih =>
    intro c i hi
    cases i with
    | zero =>
      show decide (0 < (((List.range (numDraws (replicaCount replicas sv))).map
          (fun k => s (c + k))).filter (fun d => decide (p < d))).length) = true ↔ _
      rw [decide_eq_true_iff]
      constructor
      · intro hlen
        have hne : ((List.range (numDraws (replicaCount replicas sv))).map
            (fun k => s (c + k))).filter (fun d => decide (p < d)) ≠ [] := by
          intro hnil
          rw [hnil] at hlen
          simp at hlen
        rw [Ne, List.filter_eq_nil_iff] at hne
        push_neg at hne
        obtain ⟨d, hd, hpd⟩ := hne
        obtain ⟨k, hk, rfl⟩ := List.mem_map.mp hd
        refine ⟨k, List.mem_range.mp hk, ?_⟩
        have := of_decide_eq_true hpd
        simpa [drawOffset] using this
      · intro ⟨k, hk, hpk⟩
        apply List.length_pos.mpr
        intro hnil
        have hmem : s (c + k) ∈ ((List.range (numDraws
            (replicaCount replicas sv))).map (fun k => s (c + k))).filter
            (fun d => decide (p < d)) := by
          apply List.mem_filter.mpr
          refine ⟨List.mem_map.mpr ⟨k, List.mem_range.mpr hk, rfl⟩, ?_⟩
          apply decide_eq_true
          simpa [drawOffset] using hpk
        rw [hnil] at hmem
        simp at hmem
    | succ j =>
      have hj : j < rest.length := by simpa using Nat.lt_of_succ_lt_succ hi
      have hoff : drawOffset replicas (sv :: rest) c (j + 1) =
          drawOffset replicas rest
            (c + numDraws (replicaCount replicas sv)) j := by
        simp [drawOffset, Nat.add_assoc]
      show ((drawAliveList rest replicas p s
          (c + numDraws (replicaCount replicas sv))).1.getD j false = true ↔ _)
      rw [ih _ j hj, hoff]
      rfl

/-- With `p = 0` and strictly positive draws, every service is alive. -/
theorem drawAliveList_all_alive (replicas : String → Option Int)
    (s : Nat → ℚ) (hs : ∀ k, 0 < s k) :
    ∀ (svcs : List String) (c : Nat),
      ∀ b ∈ (drawAliveList svcs replicas (0 : ℚ) s c).1, b = true := by
  intro svcs
  induction svcs with
  | nil => intro c b hb; simp [drawAliveList] at hb
  | cons sv rest ih =>
    intro c b hb
    rcases List.mem_cons.mp hb with rfl | htail
    · rw [decide_eq_true_iff]
      have hfull : ((List.range (numDraws (replicaCount replicas sv))).map
          (fun k => s (c + k))).filter (fun d => decide ((0 : ℚ) < d)) =
          (List.range (numDraws (replicaCount replicas sv))).map
            (fun k => s (c + k)) := by
        apply List.filter_eq_self.mpr
        intro d hd
        obtain ⟨k, _, rfl⟩ := List.mem_map.mp hd
        exact decide_eq_true (hs (c + k))
      rw [hfull]
      simpa using Nat.lt_of_lt_of_le Nat.zero_lt_one
        (one_le_numDraws (replicaCount replicas sv))
    · exact ih _ b htail

/-- C10 amended: the per-trial alive draw always performs
`max(1, r)` replica draws (a missing, zero or negative replica count is
treated as 1); a service's alive flag is true iff at least one of its draws
strictly exceeds `p`; and with `p = 0` every service whose draws are all
strictly positive is alive — a draw of exactly 0, which `random.random()`
can produce, counts as a failed replica. -/
theorem c10_draw_alive_amended (svcs : List String)
    (replicas : String → Option Int) (p : ℚ) (s : Nat → ℚ) (c : Nat) :
    (∀ sv, (replicas sv = none ∨ ∃ r, replicas sv = some r ∧ r ≤ 0) →
      numDraws (replicaCount replicas sv) = 1) ∧
    (∀ sv, 1 ≤ numDraws (replicaCount replicas sv)) ∧
    (drawAliveList svcs replicas p s c).1.length = svcs.length ∧
    (∀ i, i < svcs.length →
      ((drawAliveList svcs replicas p s c).1.getD i false = true ↔
        ∃ k, k < numDraws (replicaCount replicas (svcs.getD i "")) ∧
          p < s (drawOffset replicas svcs c i + k))) ∧
    ((p = 0 ∧ ∀ k, 0 < s k) →
      ∀ b ∈ (drawAliveList svcs replicas p s c).1, b = true) := by
  refine ⟨fun sv h => numDraws_eq_one replicas sv h,
    fun sv => one_le_numDraws (replicaCount replicas sv),
    drawAliveList_length replicas p s svcs c,
    fun i hi => drawAliveList_getD replicas p s svcs c i hi, ?_⟩
  intro ⟨hp, hs⟩
  subst hp
  exact drawAliveList_all_alive replicas s hs svcs c

/-- C10 witness: a three-replica service with positive draws is alive. -/
theorem c10_draw_alive_witness :
    (drawAliveList ["a"] (fun _ => some (3 : Int)) 0 (fun _ => (1 : ℚ))
      0).1.getD 0 false = true :=
  ((c10_draw_alive_amended ["a"] (fun _ => some (3 : Int)) 0
      (fun _ => (1 : ℚ)) 0).2.2.2.1 0 (by decide)).mpr
    ⟨0, by decide, by norm_num⟩

/-- `getD` with default 0 of an all-zero list is 0 at every index. -/
theorem getD_zero_of_all_zero :
    ∀ (l : List ℚ), (∀ x ∈ l, x = 0) → ∀ i, l.getD i 0 = 0 := by
  intro l
  induction l with
  | nil => intro _ i; cases i <;> rfl
  | cons x xs ih =>
    intro h i
    cases i with
    | zero => exact h x (List.mem_cons_self x xs)
    | succ j => exact ih (fun y hy => h y (List.mem_cons_of_mem x hy)) j

/-- Membership is preserved by sorted insertion. -/
theorem mem_insertSorted {le : α → α → Bool} (x : α) :
    ∀ (l : List α) (a : α), a ∈ insertSorted le x l ↔ a = x ∨ a ∈ l := by
  intro l
  induction l with
  | nil => intro a; simp [insertSorted]
  | cons y ys ih =>
    intro a
    unfold insertSorted
    by_cases h : le x y = true
    · rw [if_pos h]
      simp [List.mem_cons]
    · rw [if_neg h]
      simp [List.mem_cons, ih]
      tauto

/-- Membership is preserved by the insertion sort. -/
theorem mem_sortByB {le : α → α → Bool} :
    ∀ (l : List α) (a : α), a ∈ sortByB le l ↔ a ∈ l := by
  intro l
  induction l with
  | nil => intro a; simp [sortByB]
  | cons x xs ih =>
    intro a
    unfold sortByB
    rw [mem_insertSorted, ih, List.mem_cons]

/-- The bias series of a constant live window series equal to the model
value collapses to zeros. -/
theorem biasWindows_const (c : ℚ) (m : Nat) :
    biasWindows c (List.replicate m c) = List.replicate m 0 := by
  simp [biasWindows, List.map_replicate]

/-- Differencing two all-zero bias series yields the all-zero series. -/
theorem zipWith_sub_replicate_zero (m : Nat) :
    List.zipWith (fun a b : ℚ => a - b) (List.replicate m 0)
      (List.replicate m 0) = List.replicate m 0 := by
  induction m with
  | zero => rfl
  | succ n ih => simp [List.replicate_succ, ih]

/-- The zero elements of the all-zero difference series are all discarded
by the signed-rank zero filter. -/
theorem filter_bne_zero_replicate (m : Nat) :
    (List.replicate m (0 : ℚ)).filter (fun d => d != 0) = [] := by
  apply List.filter_eq_nil_iff.mpr
  intro a ha
  rw [List.eq_of_mem_replicate ha]
  simp

/-- C9: for a live series of `m > 0` windows all equal to `c` and a model
prediction also equal to `c`, the comparator's mean bias is exactly 0, the
bootstrap confidence interval on the per-window bias difference collapses
to `[0, 0]` (for every resampling stream), and the signed-rank test
reports the explicit unavailable result `none` because every paired
difference is zero. -/
theorem c9_degenerate_comparator (c : ℚ) (m : Nat) (hm : 0 < m)
    (pick : Nat → Nat) :
    meanBias c (List.replicate m c) = 0 ∧
    bootstrapCI (deltaWindows (biasWindows c (List.replicate m c))
      (biasWindows c (List.replicate m c))) pick 10000 (mkRat 1 20) =
      some (0, 0) ∧
    wilcoxonSignedRank (biasWindows c (List.replicate m c))
      (biasWindows c (List.replicate m c)) = none := by
  have hbias : biasWindows c (List.replicate m c) = List.replicate m 0 :=
    biasWindows_const c m
  have hdelta : deltaWindows (List.replicate m (0 : ℚ))
      (List.replicate m 0) = List.replicate m 0 :=
    zipWith_sub_replicate_zero m
  refine ⟨?_, ?_, ?_⟩
  · unfold meanBias
    rw [hbias]
    simp
  · rw [hbias]
    unfold deltaWindows at hdelta ⊢
    rw [hdelta]
    unfold bootstrapCI
    have hne : (List.replicate m (0 : ℚ)).isEmpty = false := by
      cases m with
      | zero => exact absurd hm (by simp)
      | succ n => rfl
    rw [if_neg (by simp [hne])]
    dsimp only
    have hall : ∀ x ∈ sortByB (fun a b => decide (a ≤ b))
        ((List.range 10000).map
          (resampleMean (List.replicate m (0 : ℚ)) pick)), x = 0 := by
      intro x hx
      rw [mem_sortByB] at hx
      obtain ⟨r, _, rfl⟩ := List.mem_map.mp hx
      unfold resampleMean
      dsimp only
      have hsum : ((List.range (List.replicate m (0 : ℚ)).length).map
          (fun j => (List.replicate m (0 : ℚ)).getD
            (pick (r * (List.replicate m (0 : ℚ)).length + j) %
              (List.replicate m (0 : ℚ)).length) 0)).sum = 0 := by
        apply List.sum_eq_zero
        intro y hy
        obtain ⟨j, _, rfl⟩ := List.mem_map.mp hy
        exact getD_zero_of_all_zero _
          (fun z hz => List.eq_of_mem_replicate hz) _
      rw [hsum]
      simp
    rw [getD_zero_of_all_zero _ hall, getD_zero_of_all_zero _ hall]
  · rw [hbias]
    unfold wilcoxonSignedRank
    rw [zipWith_sub_replicate_zero, filter_bne_zero_replicate]
    rfl

/-- C9 witness: the degenerate comparator run at `c = 1/2` over three
windows. -/
theorem c9_degenerate_witness :
    meanBias (mkRat 1 2) (List.replicate 3 (mkRat 1 2)) = 0 ∧
    bootstrapCI (deltaWindows
      (biasWindows (mkRat 1 2) (List.replicate 3 (mkRat 1 2)))
      (biasWindows (mkRat 1 2) (List.replicate 3 (mkRat 1 2))))
      (fun _ => 0) 10000 (mkRat 1 20) = some (0, 0) ∧
    wilcoxonSignedRank
      (biasWindows (mkRat 1 2) (List.replicate 3 (mkRat 1 2)))
      (biasWindows (mkRat 1 2) (List.replicate 3 (mkRat 1 2))) = none :=
  c9_degenerate_comparator (mkRat 1 2) 3 (by decide) (fun _ => 0)

/-- A parsed edge never relates a name to itself (the `pu == pv` drop of
line 49). -/
theorem parsedEdges_ne {raw : List (String × String)} {e : String × String}
    (h : e ∈ parsedEdges raw) : e.1 ≠ e.2 := by
  unfold parsedEdges at h
  have hp := List.of_mem_filter h
  simp only [Bool.and_eq_true, bne_iff_ne] at hp
  exact hp.2

/-- A parsed edge contributes its target to the forward adjacency of its
source. -/
theorem mem_adjOf {edges : List (String × String)} {u v : String}
    (h : (u, v) ∈ edges) : v ∈ adjOf edges u := by
  unfold adjOf
  exact List.mem_map.mpr ⟨(u, v), List.mem_filter.mpr ⟨h, by simp⟩, rfl⟩

/-- A successful expansion step contains every non-transparent member of
the scanned adjacency list. -/
theorem expandStep_mem_of_nonskip {skip : String → Bool}
    {rec : String → Option (List String)} :
    ∀ {l : List String} {out : List String} {x : String},
      expandStep skip rec l = some out → x ∈ l → skip x = false →
      x ∈ out := by
  intro l
  induction l with
  | nil => intro out x _ hx; simp at hx
  | cons y ys ih =>
    intro out x h hx hsx
    unfold expandStep at h
    by_cases hy : skip y = true
    · rw [if_pos hy] at h
      cases hr : rec y with
      | none => rw [hr] at h; simp at h
      | some zs =>
        rw [hr] at h
        cases hrest : expandStep skip rec ys with
        | none => rw [hrest] at h; simp at h
        | some ws =>
          rw [hrest] at h
          have hout := Option.some.inj h
          rcases List.mem_cons.mp hx with rfl | hxs
          · rw [hy] at hsx; cases hsx
          · exact hout ▸ List.mem_append.mpr (Or.inr (ih hrest hxs hsx))
    · rw [if_neg hy] at h
      cases hrest : expandStep skip rec ys with
      | none => rw [hrest] at h; simp at h
      | some ws =>
        rw [hrest] at h
        have hout := Option.some.inj h
        rcases List.mem_cons.mp hx with rfl | hxs
        · exact hout ▸ List.mem_cons_self x ws
        · exact hout ▸ List.mem_cons_of_mem y (ih hrest hxs hsx)

/-- A returning transparent-closure query contains every non-transparent
direct successor of the queried node. -/
theorem expandNode_mem_of_nonskip {adj : String → List String}
    {skip : String → Bool} {fuel : Nat} {node : String}
    {out : List String} {x : String}
    (h : expandNode adj skip fuel node = some out) (hx : x ∈ adj node)
    (hsx : skip x = false) : x ∈ out := by
  cases fuel with
  | zero => simp [expandNode] at h
  | succ f => exact expandStep_mem_of_nonskip h hx hsx

/-- Every original edge of a successful rewriting pass rewrites to a list
contained in the accumulated result. -/
theorem rewriteAll_mem {expF expB : String → Option (List String)}
    {skip : String → Bool} :
    ∀ {es out : List (String × String)},
      rewriteAll expF expB skip es = some out →
      ∀ {e}, e ∈ es →
        ∃ xs, rewriteEdge expF expB skip e = some xs ∧ ∀ x ∈ xs, x ∈ out := by
  intro es
  induction es with
  | nil => intro out _ e he; simp at he
  | cons e0 rest ih =>
    intro out h e he
    unfold rewriteAll at h
    cases h0 : rewriteEdge expF expB skip e0 with
    | none => rw [h0] at h; simp at h
    | some xs0 =>
      rw [h0] at h
      cases hrest : rewriteAll expF expB skip rest with
      | none => rw [hrest] at h; simp at h
      | some ys =>
        rw [hrest] at h
        have hout := Option.some.inj h
        rcases List.mem_cons.mp he with rfl | hes
        · exact ⟨xs0, h0, fun x hx => hout ▸ List.mem_append.mpr (Or.inl hx)⟩
        · obtain ⟨xs, hxs, hsub⟩ := ih hrest hes
          exact ⟨xs, hxs,
            fun x hx => hout ▸ List.mem_append.mpr (Or.inr (hsub x hx))⟩

/-- Both endpoints of an edge surviving the final transparency filter are
non-transparent. -/
theorem mem_builderFiltered_nonskip {rewritten : List (String × String)}
    {entry : List String} {e : String × String}
    (he : e ∈ builderFiltered rewritten entry) :
    skipB entry e.1 = false ∧ skipB entry e.2 = false := by
  unfold builderFiltered at he
  have hp := List.of_mem_filter he
  simp only [Bool.and_eq_true, Bool.not_eq_true'] at hp
  exact hp

/-- The source of a surviving edge appears in the sorted service list. -/
theorem fst_mem_builderServices {filtered : List (String × String)}
    {e : String × String} (he : e ∈ filtered) :
    e.1 ∈ builderServices filtered := by
  unfold builderServices
  rw [mem_sortByB, List.mem_dedup]
  exact List.mem_append.mpr (Or.inl (List.mem_map.mpr ⟨e, he, rfl⟩))

/-- The target of a surviving edge appears in the sorted service list. -/
theorem snd_mem_builderServices {filtered : List (String × String)}
    {e : String × String} (he : e ∈ filtered) :
    e.2 ∈ builderServices filtered := by
  unfold builderServices
  rw [mem_sortByB, List.mem_dedup]
  exact List.mem_append.mpr (Or.inr (List.mem_map.mpr ⟨e, he, rfl⟩))

/-- C1: for every raw observation set whose normalized edges contain a path
`a → infra → b` with `infra` denylisted and not an entrypoint and `a`, `b`
non-transparent, every graph the builder produces contains the edge
`(a, b)` directly and contains no node named `infra`. -/
theorem c1_pruning_preserves_connectivity (raw : List (String × String))
    (entry : List String) (a infra b : String)
    (hai : (a, infra) ∈ parsedEdges raw)
    (hib : (infra, b) ∈ parsedEdges raw)
    (hinfra : skipB entry infra = true) (ha : skipB entry a = false)
    (hb : skipB entry b = false) (g : BuiltGraph)
    (hg : buildGraph raw entry = some g) :
    (a, b) ∈ g.edgesN ∧ infra ∉ g.services := by
  unfold buildGraph at hg
  cases hrw : builderRewritten raw entry with
  | none => rw [hrw] at hg; simp at hg
  | some rewritten =>
    rw [hrw] at hg
    have hgeq : g = mkBuiltGraph entry (builderFiltered rewritten entry) :=
      (Option.some.inj hg).symm
    subst hgeq
    unfold builderRewritten at hrw
    obtain ⟨xs, hxs, hsub⟩ := rewriteAll_mem hrw hai
    unfold rewriteEdge at hxs
    dsimp only at hxs
    rw [ha, hinfra] at hxs
    dsimp only at hxs
    obtain ⟨ts, hts, hmapeq⟩ := Option.map_eq_some'.mp hxs
    have hbts : b ∈ ts := by
      unfold builderExpF at hts
      exact expandNode_mem_of_nonskip hts (mem_adjOf hib) hb
    have hab : (a, b) ∈ xs := by
      rw [← hmapeq]
      exact List.mem_map.mpr ⟨b, hbts, rfl⟩
    have habr : (a, b) ∈ rewritten := hsub (a, b) hab
    have hmemf : (a, b) ∈ builderFiltered rewritten entry := by
      unfold builderFiltered
      exact List.mem_filter.mpr ⟨habr, by simp [ha, hb]⟩
    constructor
    · show (a, b) ∈ (builderFiltered rewritten entry).dedup
      exact List.mem_dedup.mpr hmemf
    · intro hcontra
      have hserv : skipB entry infra = false := by
        have hx : infra ∈ builderServices (builderFiltered rewritten entry) :=
          hcontra
        unfold builderServices at hx
        rw [mem_sortByB, List.mem_dedup] at hx
        rcases List.mem_append.mp hx with hl | hr
        · obtain ⟨e, he, heq⟩ := List.mem_map.mp hl
          exact heq ▸ (mem_builderFiltered_nonskip he).1
        · obtain ⟨e, he, heq⟩ := List.mem_map.mp hr
          exact heq ▸ (mem_builderFiltered_nonskip he).2
      rw [hinfra] at hserv
      cases hserv

/-- C1 witness: the concrete path `a → jaeger → b` with no entrypoints. -/
theorem c1_pruning_witness :
    ("a", "b") ∈ gC1fix.edgesN ∧ "jaeger" ∉ gC1fix.services :=
  c1_pruning_preserves_connectivity rawC1 [] "a" "jaeger" "b"
    (by decide) (by decide) (by decide) (by decide) (by decide)
    gC1fix (by rfl)

/-- When no edge endpoint is transparent, the rewriting pass is the
identity. -/
theorem rewriteAll_of_all_nonskip {expF expB : String → Option (List String)}
    {skip : String → Bool} :
    ∀ {es : List (String × String)},
      (∀ e ∈ es, skip e.1 = false ∧ skip e.2 = false) →
      rewriteAll expF expB skip es = some es := by
  intro es
  induction es with
  | nil => intro _; rfl
  | cons e rest ih =>
    intro h
    have he := h e (List.mem_cons_self e rest)
    have hr := ih (fun x hx => h x (List.mem_cons_of_mem e hx))
    unfold rewriteAll
    unfold rewriteEdge
    rw [he.1, he.2, hr]
    rfl

/-- C4 amended: graphs built from inputs in which no node is transparent
contain no self-loop, at name level and at index level — the raw-edge parse
drops every `parent == child` observation.  (When transparent-node rewiring
applies, a rewired self-loop is NOT dropped and can appear in the final
edge set; see the counterexample.) -/
theorem c4_selfloop_amended (raw : List (String × String))
    (entry : List String)
    (hns : ∀ e ∈ parsedEdges raw,
      skipB entry e.1 = false ∧ skipB entry e.2 = false) :
    ∃ g, buildGraph raw entry = some g ∧ (∀ p ∈ g.edgesN, p.1 ≠ p.2) ∧
      (∀ p ∈ g.edges, p.1 ≠ p.2) := by
  have hrw : builderRewritten raw entry = some (parsedEdges raw) := by
    unfold builderRewritten
    exact rewriteAll_of_all_nonskip hns
  refine ⟨mkBuiltGraph entry (builderFiltered (parsedEdges raw) entry),
    ?_, ?_, ?_⟩
  · unfold buildGraph
    rw [hrw]
  · intro p hp
    have hp2 : p ∈ builderFiltered (parsedEdges raw) entry :=
      List.mem_dedup.mp hp
    exact parsedEdges_ne (List.mem_of_mem_filter hp2)
  · intro p hp
    have hp2 : p ∈ ((builderFiltered (parsedEdges raw) entry).dedup.map
        (fun e => (builderServices (builderFiltered (parsedEdges raw)
          entry) |>.indexOf e.1,
          builderServices (builderFiltered (parsedEdges raw)
          entry) |>.indexOf e.2))).dedup := by
      have := hp
      rw [show (mkBuiltGraph entry (builderFiltered (parsedEdges raw)
        entry)).edges = sortByB pairLeB
          (((builderFiltered (parsedEdges raw) entry).dedup.map
            (fun e => (builderServices (builderFiltered (parsedEdges raw)
              entry) |>.indexOf e.1,
              builderServices (builderFiltered (parsedEdges raw)
              entry) |>.indexOf e.2))).dedup) from rfl] at this
      rwa [mem_sortByB] at this
    rw [List.mem_dedup] at hp2
    obtain ⟨q, hq, heq⟩ := List.mem_map.mp hp2
    have hqf : q ∈ builderFiltered (parsedEdges raw) entry :=
      List.mem_dedup.mp hq
    have hne : q.1 ≠ q.2 := parsedEdges_ne (List.mem_of_mem_filter hqf)
    have h1 := fst_mem_builderServices hqf
    have h2 := snd_mem_builderServices hqf
    intro hEq
    rw [← heq] at hEq
    exact hne ((List.indexOf_inj h1 h2).mp hEq)

/-- C4 amended witness: a single non-transparent edge builds a
self-loop-free graph. -/
theorem c4_selfloop_witness :
    ∃ g, buildGraph [("a", "b")] [] = some g ∧
      (∀ p ∈ g.edgesN, p.1 ≠ p.2) ∧ (∀ p ∈ g.edges, p.1 ≠ p.2) :=
  c4_selfloop_amended [("a", "b")] [] (by decide)

/-- The final `k_of_n` branch of `endpoint_success` reports success iff the
adjusted requirement is non-positive, or targets remain and the clamped
requirement is met. -/
theorem kofn_decision_iff (requiredK : Int) (kept : List Nat)
    (reach : List Nat) :
    (if requiredK ≤ 0 then (Except.ok true : Except String Bool)
     else if kept.isEmpty then Except.ok false
     else Except.ok (decide (min requiredK (kept.length : Int) ≤
       ((kept.filter (fun t => reach.contains t)).length : Int)))) =
      Except.ok true ↔
    (requiredK ≤ 0 ∨ (kept ≠ [] ∧ min requiredK (kept.length : Int) ≤
      ((kept.filter (fun t => reach.contains t)).length : Int))) := by
  by_cases h1 : requiredK ≤ 0
  · rw [if_pos h1]
    simp [h1]
  · rw [if_neg h1]
    by_cases h2 : kept = []
    · subst h2
      simp [h1]
    · have hne : kept.isEmpty = false := by
        simpa [List.isEmpty_iff] using h2
      rw [hne]
      simp [h1, h2, decide_eq_true_iff]

/-- C2 amended: for a `k_of_n` endpoint spec whose entry resolves and whose
target names all resolve, a trial succeeds iff the adjusted requirement
`max(0, k − excluded)` is already ≤ 0, or some targets remain after
structural exclusion and the count of remaining targets in the
failure-aware reachable set is at least
`min(max(0, k − excluded), number of remaining targets)` — the code clamps
the requirement to the number of remaining targets (line 271), unlike the
claim's unclamped `max(0, k − excluded)` bound. -/
theorem c2_kofn_amended (g : SimGraph) (failed : List String)
    (spec : EndpointSpec) (mode : Mode) (eIdx : Nat) (ids : List Nat)
    (hadj : (adjAll g).isEmpty = false)
    (hres : resolveEntry g spec = some eIdx)
    (hrule : spec.rule = Rule.kOfN)
    (hids : targetsToIndices g.services spec.items = Except.ok ids) :
    endpointSuccess g failed spec mode = Except.ok true ↔
      (let excl := mode.isAsync && spec.excludeAsync
       let banned := if excl then g.asyncEdges else []
       let reachable := bfsReachable (adjAll g)
         (failed.filterMap (lookupName g.services)) banned eIdx
       let structuralReq : Option (List Nat) :=
         if excl then some (bfsReachable (adjAll g) [] banned eIdx) else none
       let fs := filterStruct structuralReq ids
       let requiredK : Int := max 0 (spec.k - (fs.2 : Int))
       requiredK ≤ 0 ∨ (fs.1 ≠ [] ∧
         min requiredK (fs.1.length : Int) ≤
           ((fs.1.filter (fun t => reachable.contains t)).length : Int))) := by
  unfold endpointSuccess
  rw [hadj]
  simp only [Bool.false_eq_true, if_false]
  rw [hres]
  unfold endpointSuccessCore
  rw [hrule]
  dsimp only
  rw [hids]
  dsimp only
  exact kofn_decision_iff _ _ _

/-- C2 amended witness: the amended formula evaluated on the concrete
`k = 3`-of-two-targets spec. -/
theorem c2_kofn_witness :
    endpointSuccess gC2 [] spec2 Mode.allBlock = Except.ok true ↔
      (let excl := Mode.allBlock.isAsync && spec2.excludeAsync
       let banned := if excl then gC2.asyncEdges else []
       let reachable := bfsReachable (adjAll gC2)
         (([] : List String).filterMap (lookupName gC2.services)) banned 0
       let structuralReq : Option (List Nat) :=
         if excl then some (bfsReachable (adjAll gC2) [] banned 0) else none
       let fs := filterStruct structuralReq [1, 2]
       let requiredK : Int := max 0 (spec2.k - (fs.2 : Int))
       requiredK ≤ 0 ∨ (fs.1 ≠ [] ∧
         min requiredK (fs.1.length : Int) ≤
           ((fs.1.filter (fun t => reachable.contains t)).length : Int))) :=
  c2_kofn_amended gC2 [] spec2 Mode.allBlock 0 [1, 2] (by rfl) (by rfl)
    (by rfl) (by rfl)

end OtelResilience
